import Mathlib

/-!
Shallow embedding of the AIStore proxy bootstrap core (package `ais`):
the role decision (`determineRole`), the registration-acceptance window
(`acceptRegistrations`), the broadcast reducer (`bcastMaxVer`), the slow-path
uuid resolution of `uncoverMeta`, and the conflict-resolution decision of
`discoverMeta`.

Cluster maps (Go `smapX`) are embedded as records whose `Pmap`/`Tmap` are
association lists keyed by daemon id; durations are embedded in whole seconds
(the registration-window loop ticks once per second); `int64` versions are
embedded as `Int` (no arithmetic here can overflow: versions are only compared
and bumped by small amounts).

Helper methods of `smapX` that the bootstrap calls but whose bodies are not
part of the analysed sources (`newSmap`, `isPrimary`, `GetProxy`,
`CountTargets`, `Compare`, `merge`) are modelled from the spec; each such
definition carries a doc comment saying so.
-/

deriving instance DecidableEq for Except

namespace AIS

/-- A cluster node: daemon id, control endpoint (ip, port), and whether the
node is a storage target (`true`) or a gateway/proxy (`false`). -/
structure Snode where
  id : String
  ip : String
  port : Nat
  isTargetNode : Bool
deriving DecidableEq

/-- Go `smapX`: versioned, uuid-tagged cluster map with designated primary
(`ProxySI`), gateway map `Pmap` and target map `Tmap` (association lists keyed
by daemon id). -/
structure smapX where
  UUID : String
  Version : Int
  ProxySI : Option Snode
  Pmap : List (String × Snode)
  Tmap : List (String × Snode)
deriving DecidableEq

/-- Go `bucketMD`: versioned, uuid-tagged bucket metadata (only the fields the
bootstrap core reads). -/
structure bucketMD where
  UUID : String
  Version : Int
deriving DecidableEq

/-- Lookup in an association list keyed by daemon id. -/
def lookupNode (l : List (String × Snode)) (k : String) : Option Snode :=
  match l.find? (fun kv => kv.fst == k) with
  | some kv => some kv.snd
  | none => none

/-- Go map assignment `m[n.ID()] = n`: replace the entry keyed by `n.id`, or
append a fresh one. -/
def insertNode (l : List (String × Snode)) (n : Snode) : List (String × Snode) :=
  if (lookupNode l n.id).isSome then
    l.map (fun kv => if kv.fst == n.id then (n.id, n) else kv)
  else l ++ [(n.id, n)]

/-- Modelled from the spec: `newEmpty()` creates a version-0, empty-uuid map
with empty node sets (spec section 3, Lifecycle); the source of Go `newSmap`
is outside the analysed files. -/
def newSmap : smapX := ⟨"", 0, none, [], []⟩

def countTargets (m : smapX) : Nat := m.Tmap.length

def countProxies (m : smapX) : Nat := m.Pmap.length

/-- Modelled from the spec: a node is the map's primary when it carries the
map's primary designation (spec section 3: `primaryID`); the source of Go
`smapX.isPrimary` is outside the analysed files. -/
def isPrimary (m : smapX) (si : Snode) : Bool :=
  match m.ProxySI with
  | some q => q.id == si.id
  | none => false

/-- Go `smap.GetProxy(pid)`. -/
def getProxy (m : smapX) (pid : String) : Option Snode := lookupNode m.Pmap pid

/-- The id the map's primary designation names (empty when none). -/
def proxyID (m : smapX) : String :=
  match m.ProxySI with
  | some q => q.id
  | none => ""

/-- `smap.Pmap[self.ID()] = self` followed by no other change. -/
def insertSelf (m : smapX) (self : Snode) : smapX :=
  { m with Pmap := insertNode m.Pmap self }

/-- Result triple of Go `smap.Compare`. -/
structure CompareRes where
  sameUUID : Bool
  sameVersion : Bool
  eq : Bool
deriving DecidableEq

/-- Modelled from the spec: the discovery classification compares uuid,
version, and element equality of the gateway/target sets together with the
primary designation (spec section 4.7); the source of Go `Smap.Compare` is
outside the analysed files. -/
def smapCompare (a b : smapX) : CompareRes :=
  let su := a.UUID == b.UUID
  let sv := a.Version == b.Version
  ⟨su, sv,
    su && sv && decide (a.Pmap = b.Pmap) && decide (a.Tmap = b.Tmap)
      && (proxyID a == proxyID b)⟩

/-- The only merge failure the bootstrap distinguishes. -/
inductive MergeErr
  | dupIpPort
deriving DecidableEq

/-- Two distinct nodes colliding on the (ip, port) endpoint. -/
def endpointClash (a b : Snode) : Bool :=
  a.ip == b.ip && a.port == b.port && a.id != b.id

def allNodes (m : smapX) : List Snode := (m.Pmap ++ m.Tmap).map (fun kv => kv.snd)

/-- Modelled from the spec: one half of `merge` — add the given source nodes
into the destination's gateway map (`intoT = false`) or target map
(`intoT = true`); a node already present (by id) is kept as is; an (ip, port)
collision with a distinct resident node is skipped under `override`, and is a
`dupIpPort` error in strict mode (spec sections 4.5 step 3, 4.7 step 5, 7
MergeConflict). The source of Go `smapX.merge` is outside the analysed
files. -/
def mergeAddList (override intoT : Bool) :
    smapX → Nat → List Snode → Except MergeErr (Nat × smapX)
  | dst, added, [] => Except.ok (added, dst)
  | dst, added, n :: rest =>
    let present :=
      if intoT then (lookupNode dst.Tmap n.id).isSome
      else (lookupNode dst.Pmap n.id).isSome
    if present then mergeAddList override intoT dst added rest
    else if (allNodes dst).any (fun m => endpointClash m n) then
      if override then mergeAddList override intoT dst added rest
      else Except.error MergeErr.dupIpPort
    else
      let dst2 :=
        if intoT then { dst with Tmap := insertNode dst.Tmap n }
        else { dst with Pmap := insertNode dst.Pmap n }
      mergeAddList override intoT dst2 (added + 1) rest

/-- Modelled from the spec: `src.merge(dst, override)` — union the receiver's
gateway and target sets into `dst`, returning the number of nodes added, the
strict-mode error if any, and the merged destination. -/
def smapMerge (src dst : smapX) (override : Bool) : Nat × Option MergeErr × smapX :=
  match mergeAddList override false dst 0 (src.Pmap.map (fun kv => kv.snd)) with
  | Except.error e => (0, some e, dst)
  | Except.ok (a1, d1) =>
    match mergeAddList override true d1 a1 (src.Tmap.map (fun kv => kv.snd)) with
    | Except.error e => (a1, some e, d1)
    | Except.ok (a2, d2) => (a2, none, d2)

/-- Wire tuple of a `what=smap-vote` response (Go `SmapVoteMsg`); any field may
be absent. -/
structure SmapVoteMsg where
  Smap : Option smapX
  BucketMD : Option bucketMD
  VoteInProgress : Bool
deriving DecidableEq

/-- One per-node broadcast result: transport failure, undecodable payload, or
a decoded vote tuple from node `si`. -/
inductive callResult
  | failed
  | badDecode
  | ok (si : Snode) (svm : SmapVoteMsg)
deriving DecidableEq

/-- The reducer state of Go `bcastMaxVer`: running maxima with their origin
uuids, the `done` and slow-path flags, and the per-node retention maps. -/
structure BcastState where
  maxVerSmap : Option smapX
  maxVerBMD : Option bucketMD
  done : Bool
  slowp : Bool
  sorigin : String
  borigin : String
  bmds : List (Snode × bucketMD)
  smaps : List (Snode × smapX)
deriving DecidableEq

/-- The BMD branch of `bcastMaxVer` for one decoded response (init, slow-path
latch, fast-path advance). -/
def applyBMD (st : BcastState) (svm : SmapVoteMsg) : BcastState :=
  match svm.BucketMD with
  | none => st
  | some bmd =>
    if 0 < bmd.Version then
      match st.maxVerBMD with
      | none => { st with borigin := bmd.UUID, maxVerBMD := some bmd }
      | some mx =>
        if st.borigin != "" && st.borigin != bmd.UUID then { st with slowp := true }
        else if !st.slowp && mx.Version < bmd.Version then
          { st with maxVerBMD := some bmd, borigin := bmd.UUID }
        else st
    else st

/-- The Smap branch of `bcastMaxVer` for one decoded response. -/
def applySmap (st : BcastState) (svm : SmapVoteMsg) : BcastState :=
  match svm.Smap with
  | none => st
  | some sm =>
    if 0 < sm.Version then
      match st.maxVerSmap with
      | none => { st with sorigin := sm.UUID, maxVerSmap := some sm }
      | some mx =>
        if st.sorigin != "" && st.sorigin != sm.UUID then { st with slowp := true }
        else if !st.slowp && mx.Version < sm.Version then
          { st with maxVerSmap := some sm, sorigin := sm.UUID }
        else st
    else st

/-- Go map assignment `bmds[si] = b` keyed by responder. -/
def upsertBMD (l : List (Snode × bucketMD)) (si : Snode) (b : bucketMD) :
    List (Snode × bucketMD) :=
  if l.any (fun kv => kv.fst.id == si.id) then
    l.map (fun kv => if kv.fst.id == si.id then (si, b) else kv)
  else l ++ [(si, b)]

/-- Go map assignment `smaps[si] = sm` keyed by responder. -/
def upsertSmap (l : List (Snode × smapX)) (si : Snode) (sm : smapX) :
    List (Snode × smapX) :=
  if l.any (fun kv => kv.fst.id == si.id) then
    l.map (fun kv => if kv.fst.id == si.id then (si, sm) else kv)
  else l ++ [(si, sm)]

/-- Per-node retention at the end of one response iteration (`cB`/`cS` encode
whether the caller supplied the `bmds`/`smaps` maps, i.e. whether they are
non-nil in the Go call). -/
def retain (cB cS : Bool) (st : BcastState) (si : Snode) (svm : SmapVoteMsg) :
    BcastState :=
  let st1 :=
    match svm.BucketMD with
    | some b => if cB && 0 < b.Version then { st with bmds := upsertBMD st.bmds si b } else st
    | none => st
  match svm.Smap with
  | some sm =>
    if cS && 0 < sm.Version then { st1 with smaps := upsertSmap st1.smaps si sm } else st1
  | none => st1

/-- The response loop of Go `bcastMaxVer`: per response, transport/decoding
errors flip `done`; then the BMD branch, the vote-in-progress early break
(which zeroes both maxima and stops consuming), the Smap branch, and
retention. -/
def bcastFold (cB cS : Bool) : BcastState → List callResult → BcastState
  | st, [] => st
  | st, callResult.failed :: rest => bcastFold cB cS { st with done := false } rest
  | st, callResult.badDecode :: rest => bcastFold cB cS { st with done := false } rest
  | st, callResult.ok si svm :: rest =>
    let st1 := applyBMD st svm
    if svm.Smap.isSome && svm.VoteInProgress then
      { st1 with maxVerSmap := none, maxVerBMD := none, done := false }
    else
      bcastFold cB cS (retain cB cS (applySmap st1 svm) si svm) rest

/-- The reducer's initial state: `done` starts true, both retention maps are
cleared on entry. -/
def initBcast : BcastState := ⟨none, none, true, false, "", "", [], []⟩

/-- Go `bcastMaxVer` reduced over a list of per-node results. -/
def bcastMaxVer (cB cS : Bool) (results : List callResult) : BcastState :=
  bcastFold cB cS initBcast results

/-- First slow-path loop of `uncoverMeta`: fold over the retained smaps in
order, considering targets only; the first non-empty uuid becomes `suuid`; a
later target with a different non-empty uuid is the CIE-30 split (error). -/
def pickSuuid : String → List (Snode × smapX) → Except Unit String
  | suuid, [] => Except.ok suuid
  | suuid, (si, sm) :: rest =>
    if !si.isTargetNode then pickSuuid suuid rest
    else if suuid == "" then pickSuuid sm.UUID rest
    else if suuid != sm.UUID && sm.UUID != "" then Except.error ()
    else pickSuuid suuid rest

/-- Second slow-path loop of `uncoverMeta`: among all retained smaps whose uuid
equals `suuid`, advance the running maximum by version — note the running
maximum is seeded with the fast-path maximum left over from the last reduction
round (it is not reset to nil in the source). -/
def pickMaxBySuuid (suuid : String) : Option smapX → List (Snode × smapX) → Option smapX
  | mx, [] => mx
  | mx, (_, sm) :: rest =>
    if sm.UUID != suuid then pickMaxBySuuid suuid mx rest
    else
      match mx with
      | none => pickMaxBySuuid suuid (some sm) rest
      | some m =>
        if m.Version < sm.Version then pickMaxBySuuid suuid (some sm) rest
        else pickMaxBySuuid suuid mx rest

/-- Outcome of the Smap part of `uncoverMeta`'s post-loop resolution. (The BMD
part delegates to `resolveUUIDBMD`, an external collaborator per spec section
6, and is orthogonal to the Smap resolution.) -/
inductive UncoverOutcome
  | fatalCIE (code : Nat)
  | ok (maxVerSmap : Option smapX)
deriving DecidableEq

/-- The Smap slow-path resolution of `uncoverMeta`, applied to the final
reduction round's state: on the slow path, agree a target uuid (fatal CIE-30
on a split) and take the maximum-version map with that uuid, seeded with the
carried fast-path maximum; off the slow path the fast-path maximum stands. -/
def uncoverResolve (st : BcastState) : UncoverOutcome :=
  if st.slowp then
    match pickSuuid "" st.smaps with
    | Except.error _ => UncoverOutcome.fatalCIE 30
    | Except.ok suuid => UncoverOutcome.ok (pickMaxBySuuid suuid st.maxVerSmap st.smaps)
  else UncoverOutcome.ok st.maxVerSmap

/-- Outcome of the conflict-resolution decision in `discoverMeta` (its Smap
part, after `uncoverMeta` returned). `fatalMerge e` is the unconditional
`ExitLogf` on the strict-merge path — reached whenever the maps are not
element-equal, with `e` the strict merge's error, nil or not. -/
inductive DiscoverResult
  | fatalCIE (code : Nat)
  | fatalMerge (err : Option MergeErr)
  | demoted (installed : smapX)
  | merged (installed : smapX)
  | noop
deriving DecidableEq

/-- The decision chain of `discoverMeta` on `maxVerSmap`: nil or version-0 max
is a no-op; uuid mismatch is fatal CIE-10; element-equal same-version is a
no-op; a different primary demotes self (installing the max with self added)
when strictly newer, else is fatal CIE-20; otherwise the strict merge of the
max into a clone of the owner's current map — in the source this path calls
`ExitLogf` unconditionally whenever the maps are not element-equal, even when
the merge error is nil; with element-equal maps of different version the clone
is installed with version `max(current, max) + 1`. -/
def discoverDecide (self : Snode) (smap ownerCur : smapX) (maxVer : Option smapX) :
    DiscoverResult :=
  match maxVer with
  | none => DiscoverResult.noop
  | some mv =>
    if mv.Version == 0 then DiscoverResult.noop
    else
      let cmp := smapCompare smap mv
      if !cmp.sameUUID then DiscoverResult.fatalCIE 10
      else if cmp.eq && cmp.sameVersion then DiscoverResult.noop
      else if (match mv.ProxySI with | some q => q.id != self.id | none => false) then
        if smap.Version < mv.Version then DiscoverResult.demoted (insertSelf mv self)
        else DiscoverResult.fatalCIE 20
      else
        let clone := ownerCur
        if !cmp.eq then DiscoverResult.fatalMerge (smapMerge mv clone false).2.1
        else DiscoverResult.merged { clone with Version := max clone.Version mv.Version + 1 }

/-- Environment hints read by `determineRole` (`AIS_PRIMARY_ID`,
`AIS_IS_PRIMARY`). -/
structure EnvP where
  pid : String
  primary : Bool
deriving DecidableEq

/-- Outcome of `determineRole`: the fatal env misconfiguration, or the
possibly-adjusted loaded map together with the secondary decision. -/
inductive RoleResult
  | fatal
  | role (smap : Option smapX) (secondary : Bool)
deriving DecidableEq

/-- The env-primary adjustment inside `determineRole`: an unknown
`AIS_PRIMARY_ID` is dropped (pid becomes empty); a known one that differs from
the map's current primary is adopted as the primary designation. -/
def adoptEnvPrimary (m : smapX) (pid : String) : smapX × String :=
  match getProxy m pid with
  | none => (m, "")
  | some prx =>
    if proxyID m != pid then ({ m with ProxySI := some prx }, pid) else (m, pid)

/-- Go `determineRole`: insert self into a loaded map, reject the inconsistent
env combination, adjust by the env-named primary, then decide secondary by the
env pid, else the loaded map's primary, else `AIS_IS_PRIMARY`. -/
def determineRole (self : Snode) (smap0 : smapX) (loaded : Bool) (env : EnvP) :
    RoleResult :=
  let smapIns := if loaded then insertSelf smap0 self else smap0
  if env.pid != "" && env.primary && self.id != env.pid then RoleResult.fatal
  else
    let step : smapX × String :=
      if loaded && env.pid != "" then adoptEnvPrimary smapIns env.pid
      else (smapIns, env.pid)
    let secondary :=
      if step.snd != "" then step.snd != self.id
      else if loaded then !(isPrimary step.fst self)
      else !env.primary
    RoleResult.role (if loaded then some step.fst else none) secondary

/-- One second of the registration window: the owner's current map observed
after the sleep, plus the environment's reduced broadcast answer should the
one-shot probe fire at this tick. -/
structure Tick where
  smap : smapX
  probeSmap : Option smapX
  probeSlowp : Bool

/-- Observable outcome of `acceptRegistrations`: the supersede map if any, the
elapsed seconds at exit, and how many times the one-shot probe ran. -/
structure RegResult where
  superseder : Option smapX
  ticksUsed : Nat
  probes : Nat
deriving DecidableEq

/-- The supersede test applied to one probe answer: fast path only, uuid equal
to the loaded map's, version strictly above it, and a primary that is not
self; anything else yields nothing (`maxVerSmap = nil`). -/
def probeHit (self : Snode) (l : smapX) (t : Tick) : Option smapX :=
  match t.probeSmap with
  | none => none
  | some mv =>
    if !t.probeSlowp then
      if mv.UUID == l.UUID && l.Version < mv.Version then
        match mv.ProxySI with
        | some q => if q.id != self.id then some mv else none
        | none => none
      else none
    else none

/-- The wait loop of `acceptRegistrations`, one recursive call per 1-second
tick: guard `elapsed < wtime`; break (returning nil) when no longer primary;
return nil once the requested target count is reached (when requested);
promote `wtime` to the full deadline in presence of registrations; fire the
one-shot probe once `2 * maxKeepalive` has elapsed, when a loaded map with
targets exists. `fuel` starts at `deadline` and dominates `wtime - elapsed`,
so exhaustion coincides with the guard. -/
def acceptRegsLoop (self : Snode) (loaded : Option smapX)
    (deadline maxKA ntargets : Nat) (ticks : Nat → Tick) :
    Nat → Nat → Nat → Bool → Nat → RegResult
  | 0, elapsed, _, _, probes => ⟨none, elapsed, probes⟩
  | Nat.succ fuel, elapsed, wtime, checked, probes =>
    if wtime ≤ elapsed then ⟨none, elapsed, probes⟩
    else if !(isPrimary (ticks (elapsed + 1)).smap self) then ⟨none, elapsed + 1, probes⟩
    else if ntargets ≤ countTargets (ticks (elapsed + 1)).smap && 0 < ntargets then
      ⟨none, elapsed + 1, probes⟩
    else
      match loaded with
      | some l =>
        if !checked && 0 < countTargets l && 2 * maxKA < elapsed + 1 then
          match probeHit self l (ticks (elapsed + 1)) with
          | some mv => ⟨some mv, elapsed + 1, probes + 1⟩
          | none =>
            acceptRegsLoop self loaded deadline maxKA ntargets ticks fuel (elapsed + 1)
              (if 0 < countTargets (ticks (elapsed + 1)).smap then deadline else wtime)
              true (probes + 1)
        else
          acceptRegsLoop self loaded deadline maxKA ntargets ticks fuel (elapsed + 1)
            (if 0 < countTargets (ticks (elapsed + 1)).smap then deadline else wtime)
            checked probes
      | none =>
        acceptRegsLoop self loaded deadline maxKA ntargets ticks fuel (elapsed + 1)
          (if 0 < countTargets (ticks (elapsed + 1)).smap then deadline else wtime)
          checked probes

/-- Go `acceptRegistrations`: `wtime` starts at half the startup deadline,
`checked` starts true exactly when no map was loaded. -/
def acceptRegistrations (self : Snode) (loaded : Option smapX)
    (deadline maxKA ntargets : Nat) (ticks : Nat → Tick) : RegResult :=
  acceptRegsLoop self loaded deadline maxKA ntargets ticks
    deadline 0 (deadline / 2) loaded.isNone 0

/-- The minimal map `primaryStartup` installs first: only self, marked
primary. -/
def minimalStartupSmap (self : Snode) : smapX :=
  { newSmap with Pmap := insertNode newSmap.Pmap self, ProxySI := some self }

/-- The map installed on change-of-mind #1 in `primaryStartup`: the window's
supersede map with self inserted into its gateway map. -/
def changeOfMind1Install (mv : smapX) (self : Snode) : smapX := insertSelf mv self

/-- The map `secondaryStartup` installs: the one handed to it, or a fresh
`newSmap` when none was. -/
def secondaryStartupInstall (smap : Option smapX) : smapX :=
  match smap with
  | some s => s
  | none => newSmap

/-- The loaded map as `determineRole` leaves it: self inserted, and the
env-named known gateway adopted as primary when applicable. -/
def adoptedView (self : Snode) (smap0 : smapX) (loaded : Bool) (env : EnvP) : smapX :=
  let smapIns := if loaded then insertSelf smap0 self else smap0
  if loaded && env.pid != "" then (adoptEnvPrimary smapIns env.pid).fst else smapIns

/-- The secondary condition exactly as claim C8 words it (a spec-side
definition, for comparison against `determineRole`): env names a primary id
different from self; or loaded (after adopting any env-named known gateway as
primary) and self is not its primary; or no env primary id, not loaded, and
`AIS_IS_PRIMARY` not true. -/
def claimC8secondary (self : Snode) (smap0 : smapX) (loaded : Bool) (env : EnvP) : Bool :=
  (env.pid != "" && env.pid != self.id) ||
  (loaded && !(isPrimary (adoptedView self smap0 loaded env) self)) ||
  (env.pid == "" && !loaded && !env.primary)

/-- The secondary condition as claim C8 amended: the env clause applies only
when the named id is known to the loaded map (or nothing was loaded); an
unknown env id is ignored and the loaded map's primary decides. -/
def amendedC8secondary (self : Snode) (smap0 : smapX) (loaded : Bool) (env : EnvP) : Bool :=
  let smapIns := if loaded then insertSelf smap0 self else smap0
  (env.pid != "" && (!loaded || (getProxy smapIns env.pid).isSome) && env.pid != self.id) ||
  (loaded && !(isPrimary (adoptedView self smap0 loaded env) self)) ||
  (env.pid == "" && !loaded && !env.primary)

/-- Fixture gateway nodes for concrete evaluations. -/
def p1 : Snode := ⟨"p1", "10.0.0.1", 8080, false⟩

def p2 : Snode := ⟨"p2", "10.0.0.2", 8080, false⟩

def q1 : Snode := ⟨"q1", "10.0.0.9", 8080, false⟩

/-- Fixture target node. -/
def t1 : Snode := ⟨"t1", "10.0.1.1", 9090, true⟩

/-- C1 fixture: the node's current map — self-primary, uuid `U`, version 5. -/
def c1smap : smapX := ⟨"U", 5, some p1, [("p1", p1)], [("t1", t1)]⟩

/-- C1 fixture: a max-version map with the same uuid, naming self as primary,
one extra gateway on a distinct endpoint — its strict merge into the current
map succeeds with a nil error. -/
def c1max : smapX := ⟨"U", 7, some p1, [("p1", p1), ("p2", p2)], [("t1", t1)]⟩

/-- C2 fixture: a clean first response's map. -/
def c2s1 : smapX := ⟨"U", 3, some p1, [("p1", p1)], []⟩

/-- C2 fixture: a clean response followed by a voteInProgress tuple whose Smap
field is absent. -/
def c2stream : List callResult :=
  [callResult.ok p1 ⟨some c2s1, none, false⟩, callResult.ok q1 ⟨none, none, true⟩]

/-- C3 fixture: first responder's map, non-empty uuid `A`. -/
def c3sA : smapX := ⟨"A", 1, none, [], []⟩

/-- C3 fixture: second responder's map, positive version, empty uuid. -/
def c3sE : smapX := ⟨"", 2, none, [], []⟩

/-- C4 fixture: the fast-path maximum, uuid `A`, version 9, from a gateway. -/
def c4sA : smapX := ⟨"A", 9, none, [], []⟩

/-- C4 fixture: the only target's map, uuid `B`, version 3. -/
def c4sB : smapX := ⟨"B", 3, none, [], []⟩

/-- C4 fixture: a gateway answers `A`/v9 first, a target answers `B`/v3 —
the reduction latches the slow path with the fast-path maximum at `A`/v9. -/
def c4stream : List callResult :=
  [callResult.ok p1 ⟨some c4sA, none, false⟩, callResult.ok t1 ⟨some c4sB, none, false⟩]

/-- C5 fixture: self-primary current map, uuid `U`, version 5. -/
def c5smap : smapX := ⟨"U", 5, some p1, [("p1", p1)], []⟩

/-- C5 fixture: same-uuid max-version map naming a different primary. -/
def c5mv : smapX := ⟨"U", 7, some q1, [("q1", q1)], []⟩

/-- C6 fixture: the loaded map — self-primary, uuid `U`, version 5, one
target. -/
def c6loaded : smapX := ⟨"U", 5, some p1, [("p1", p1)], [("t1", t1)]⟩

/-- C6/C7 fixture: the owner's map during the window — self-primary, no
targets. -/
def c7smap : smapX := ⟨"", 0, some p1, [("p1", p1)], []⟩

/-- C6 fixture: the probe's answer — same uuid, newer, different primary. -/
def c6sup : smapX := ⟨"U", 6, some q1, [("q1", q1)], []⟩

/-- C6 fixture: quiet ticks, except the probe answer arriving at tick 3. -/
def c6ticks : Nat → Tick :=
  fun k => if k == 3 then ⟨c7smap, some c6sup, false⟩ else ⟨c7smap, none, false⟩

/-- C7 fixture: a window tick that always observes a self-primary map with one
registered target. -/
def c7tickT : Tick := ⟨⟨"", 0, some p1, [("p1", p1)], [("t1", t1)]⟩, none, false⟩

/-- C10 fixture: a tick observing a map whose primary is someone else. -/
def c10tickNP : Tick := ⟨⟨"U", 9, some q1, [("q1", q1)], []⟩, none, false⟩

/-- C8 fixture: loaded map with self as primary. -/
def c8smap : smapX := ⟨"U", 4, some p1, [("p1", p1)], []⟩

/-- C8 fixture: env names a primary id unknown to the loaded map. -/
def c8env : EnvP := ⟨"nope", false⟩

/-- C3 amended-witness fixture: a reducer state mid-stream with a non-empty
Smap origin and a non-empty BMD origin. -/
def c3wSt : BcastState :=
  ⟨some c3sA, some ⟨"A", 1⟩, true, false, "A", "A", [], []⟩

/-- C3 amended-witness fixture: a response carrying an empty-uuid map and an
empty-uuid BMD, both of positive version. -/
def c3wSvm : SmapVoteMsg := ⟨some c3sE, some ⟨"", 2⟩, false⟩

/-- C4 amended-witness fixture: a slow-path reduction state carrying the
fast-path maximum `A`/v9 and one retained target map `B`/v3. -/
def c4wSt : BcastState :=
  ⟨some c4sA, none, true, true, "A", "", [], [(t1, c4sB)]⟩

/-- Claim C1 (code bug): at a discovery state where the local node is still
the primary named by the max-version map, element sets differ, and the strict
merge returns a nil error, the source still terminates fatally — the
`ExitLogf` on the merge path is unconditional. The claim (and the spec's
stated intent) is that a nil merge error installs the merged clone and
continues. -/
theorem C1_fatal_even_on_nil_merge_error :
    discoverDecide p1 c1smap c1smap (some c1max) = DiscoverResult.fatalMerge none ∧
    (smapMerge c1max c1smap false).2.1 = none := by decide

/-- Claim C2 counterexample: a voteInProgress tuple whose Smap field is absent
does not abort the round — the running maximum survives and `done` stays
true, contradicting the claim that any voteInProgress tuple (including one
with an absent CMap) zeroes both maxes and sets `done = false`. -/
theorem C2_counterexample :
    c2stream.get? 1 = some (callResult.ok q1 ⟨none, none, true⟩) ∧
    (bcastMaxVer false false c2stream).done = true ∧
    (bcastMaxVer false false c2stream).maxVerSmap = some c2s1 := by decide

/-- Claim C3 counterexample: after a first responder with non-empty uuid `A`
establishes the origin, a second responder carrying a positive-version map
with an *empty* uuid does set the slow path — contradicting the claim that
only a later non-empty differing uuid sets it. -/
theorem C3_counterexample :
    (bcastMaxVer false false
        [callResult.ok p1 ⟨some c3sA, none, false⟩,
         callResult.ok q1 ⟨some c3sE, none, false⟩]).slowp = true ∧
    c3sE.UUID = "" ∧ 0 < c3sE.Version := by decide

/-- Claim C4 counterexample: on the slow path with agreed target uuid `B`, the
map returned is the carried fast-path maximum `A`/v9 — its uuid differs from
the agreed `suuid`, contradicting the claim that the returned CMap is the
highest-version CMap whose uuid equals `suuid`. -/
theorem C4_counterexample :
    (bcastMaxVer true true c4stream).slowp = true ∧
    pickSuuid "" (bcastMaxVer true true c4stream).smaps = Except.ok "B" ∧
    uncoverResolve (bcastMaxVer true true c4stream) = UncoverOutcome.ok (some c4sA) ∧
    c4sA.UUID ≠ "B" := by decide

/-- Claim C7 counterexample: with `targetCount = 0`, no loaded map, self
primary throughout and zero registrations, the window exits after
`startupTimeout / 2` seconds (5 of 10), not the full deadline. -/
theorem C7_counterexample :
    acceptRegistrations p1 none 10 1 0 (fun _ => ⟨c7smap, none, false⟩) =
      ⟨none, 5, 0⟩ ∧ (5 : Nat) ≠ 10 := by decide

/-- Claim C8 counterexample: env names a primary id (`nope`) different from
self, but the id is unknown to the loaded map, so the source drops it and
decides by the loaded map's primary (self) — primary, not secondary; the
claim's disjunction says secondary. -/
theorem C8_counterexample :
    determineRole p1 c8smap true c8env = RoleResult.role (some (insertSelf c8smap p1)) false ∧
    claimC8secondary p1 c8smap true c8env = true := by decide

/-- Claim C9 counterexample: the secondary track of the bootstrap installs a
fresh `newSmap` when nothing was loaded — a CMap that does not contain this
node in its gateway map, contradicting the claim's universal statement over
every CMap the bootstrap installs. -/
theorem C9_counterexample :
    secondaryStartupInstall none = newSmap ∧
    lookupNode (secondaryStartupInstall none).Pmap p1.id = none := by decide

/-- Claim C10: at any tick of the registration window at which the installed
map no longer names this node as primary, the wait loop exits immediately at
that tick and returns no supersede map — stated over an arbitrary reachable
loop state (elapsed time, wait bound, probe latch, probe count). -/
theorem C10_nonprimary_exits_immediately (self : Snode) (loaded : Option smapX)
    (deadline maxKA ntargets : Nat) (ticks : Nat → Tick)
    (fuel elapsed wtime : Nat) (checked : Bool) (probes : Nat)
    (hguard : elapsed < wtime)
    (hnp : isPrimary (ticks (elapsed + 1)).smap self = false) :
    acceptRegsLoop self loaded deadline maxKA ntargets ticks
        (fuel + 1) elapsed wtime checked probes =
      ⟨none, elapsed + 1, probes⟩ := by
  simp only [acceptRegsLoop, hnp]
  rw [if_neg (by omega)]
  simp

/-- Witness for C10 at a concrete state: with every tick naming `q1` as
primary, the loop for `p1` exits at the first tick with no supersede. -/
theorem C10_witness :
    acceptRegsLoop p1 none 10 1 0 (fun _ => c10tickNP) 4 0 5 true 0 =
      ⟨none, 1, 0⟩ :=
  C10_nonprimary_exits_immediately p1 none 10 1 0 (fun _ => c10tickNP) 3 0 5 true 0
    (by decide) (by decide)

/-- Claim C5: in discovery, a same-uuid max-version map naming a different
primary while the node is still primary of its own map leads to exactly one of
two outcomes — demotion (installing the max with self inserted) when the max
version is strictly greater, and the CIE-20 split-brain fatal otherwise. -/
theorem C5_demote_or_fatal (self : Snode) (smap ownerCur mv : smapX) (q : Snode)
    (hp : isPrimary smap self = true)
    (hq : mv.ProxySI = some q) (hqid : q.id ≠ self.id)
    (hu : smap.UUID = mv.UUID) (hv : mv.Version ≠ 0) :
    discoverDecide self smap ownerCur (some mv) =
      (if smap.Version < mv.Version then DiscoverResult.demoted (insertSelf mv self)
       else DiscoverResult.fatalCIE 20) := by
  have hps : ∃ x, smap.ProxySI = some x ∧ x.id = self.id := by
    unfold isPrimary at hp
    match h : smap.ProxySI with
    | some x =>
      rw [h] at hp
      exact ⟨x, rfl, by simpa using hp⟩
    | none => rw [h] at hp; simp at hp
  obtain ⟨x, hx, hxid⟩ := hps
  have hxq : x.id ≠ q.id := fun h => hqid (h ▸ hxid)
  by_cases hlt : smap.Version < mv.Version
  · simp [discoverDecide, smapCompare, proxyID, hx, hq, hu, hv, hxq, hqid, hlt]
  · simp [discoverDecide, smapCompare, proxyID, hx, hq, hu, hv, hxq, hqid, hlt]

/-- Witness for C5 at a concrete discovery state: uuid `U` on both sides,
current version 5, max version 7 naming `q1` — the outcome is demotion with
self inserted. -/
theorem C5_witness :
    discoverDecide p1 c5smap c5smap (some c5mv) =
      (if c5smap.Version < c5mv.Version then DiscoverResult.demoted (insertSelf c5mv p1)
       else DiscoverResult.fatalCIE 20) :=
  C5_demote_or_fatal p1 c5smap c5smap c5mv q1 (by decide) (by decide) (by decide)
    (by decide) (by decide)

/-- Helper: once the reducer meets a response with a present Smap and the
voteInProgress flag, the rest of the stream is never consumed and the
resulting state has both maxima zeroed and `done = false` — for any starting
state and any placement of the response. -/
theorem bcastFold_vip_break (cB cS : Bool) (si : Snode) (svm : SmapVoteMsg)
    (hs : svm.Smap.isSome = true) (hv : svm.VoteInProgress = true) :
    ∀ (pre suffix : List callResult) (st : BcastState),
      bcastFold cB cS st (pre ++ callResult.ok si svm :: suffix) =
        bcastFold cB cS st (pre ++ [callResult.ok si svm]) ∧
      (bcastFold cB cS st (pre ++ callResult.ok si svm :: suffix)).maxVerSmap = none ∧
      (bcastFold cB cS st (pre ++ callResult.ok si svm :: suffix)).maxVerBMD = none ∧
      (bcastFold cB cS st (pre ++ callResult.ok si svm :: suffix)).done = false := by
  intro pre
  induction pre with
  | nil =>
    intro suffix st
    simp [bcastFold, hs, hv]
  | cons r rest ih =>
    intro suffix st
    cases r with
    | failed =>
      simpa only [List.cons_append, bcastFold] using ih suffix { st with done := false }
    | badDecode =>
      simpa only [List.cons_append, bcastFold] using ih suffix { st with done := false }
    | ok si2 svm2 =>
      cases h2 : (svm2.Smap.isSome && svm2.VoteInProgress) with
      | true => simp [bcastFold, h2]
      | false =>
        simpa only [List.cons_append, bcastFold, h2, Bool.false_eq_true, if_false]
          using ih suffix (retain cB cS (applySmap (applyBMD st svm2) svm2) si2 svm2)

/-- Claim C2 (amended): a decoded VoteTuple with voteInProgress = true *and a
present (non-nil) CMap field* — in any position, including the very first —
makes the reduction unusable: both maxima are zeroed, `done` is false, and
the remaining responses are never consumed (the result equals that of the
stream truncated at the offending tuple). A voteInProgress tuple whose CMap
field is absent does not abort the round. -/
theorem C2_amended_vote_in_progress (cB cS : Bool) (pre suffix : List callResult)
    (si : Snode) (svm : SmapVoteMsg)
    (hs : svm.Smap.isSome = true) (hv : svm.VoteInProgress = true) :
    bcastMaxVer cB cS (pre ++ callResult.ok si svm :: suffix) =
      bcastMaxVer cB cS (pre ++ [callResult.ok si svm]) ∧
    (bcastMaxVer cB cS (pre ++ callResult.ok si svm :: suffix)).maxVerSmap = none ∧
    (bcastMaxVer cB cS (pre ++ callResult.ok si svm :: suffix)).maxVerBMD = none ∧
    (bcastMaxVer cB cS (pre ++ callResult.ok si svm :: suffix)).done = false :=
  bcastFold_vip_break cB cS si svm hs hv pre suffix initBcast

/-- Witness for the amended C2: a voteInProgress tuple with a present CMap in
first position, followed by one more (never-consumed) response. -/
theorem C2_amended_witness :
    bcastMaxVer false false
        ([] ++ callResult.ok q1 ⟨some c2s1, none, true⟩ :: [callResult.failed]) =
      bcastMaxVer false false ([] ++ [callResult.ok q1 ⟨some c2s1, none, true⟩]) ∧
    (bcastMaxVer false false
        ([] ++ callResult.ok q1 ⟨some c2s1, none, true⟩ :: [callResult.failed])).maxVerSmap
      = none ∧
    (bcastMaxVer false false
        ([] ++ callResult.ok q1 ⟨some c2s1, none, true⟩ :: [callResult.failed])).maxVerBMD
      = none ∧
    (bcastMaxVer false false
        ([] ++ callResult.ok q1 ⟨some c2s1, none, true⟩ :: [callResult.failed])).done
      = false :=
  C2_amended_vote_in_progress false false [] [callResult.failed] q1
    ⟨some c2s1, none, true⟩ rfl rfl

/-- Claim C3 (amended): for each kind independently, one reduction step sets
the slow path exactly when it was already set or the incoming positive-version
instance arrives after the maximum is initialized and its uuid differs from a
*non-empty* current origin uuid — the incoming uuid itself may be empty (an
empty-uuid instance after a non-empty origin does set the slow path). -/
theorem C3_amended_slowpath_iff (st : BcastState) (svm : SmapVoteMsg)
    (s : smapX) (b : bucketMD) :
    (svm.Smap = some s →
      ((applySmap st svm).slowp = true ↔
        (st.slowp = true ∨
          (0 < s.Version ∧ st.maxVerSmap.isSome = true ∧
            st.sorigin ≠ "" ∧ st.sorigin ≠ s.UUID)))) ∧
    (svm.BucketMD = some b →
      ((applyBMD st svm).slowp = true ↔
        (st.slowp = true ∨
          (0 < b.Version ∧ st.maxVerBMD.isSome = true ∧
            st.borigin ≠ "" ∧ st.borigin ≠ b.UUID)))) := by
  constructor
  · intro h
    simp only [applySmap, h]
    by_cases hv : 0 < s.Version
    · simp only [if_pos hv]
      match hm : st.maxVerSmap with
      | none => simp [hv]
      | some mx =>
        simp only
        cases hc : (st.sorigin != "" && st.sorigin != s.UUID) with
        | true =>
          rw [Bool.and_eq_true, bne_iff_ne, bne_iff_ne] at hc
          simp [hv, hc.1, hc.2]
        | false =>
          have hc2 : ¬(st.sorigin ≠ "" ∧ st.sorigin ≠ s.UUID) := by
            intro hand
            rw [← Bool.not_eq_true, Bool.and_eq_true, bne_iff_ne, bne_iff_ne] at hc
            exact hc hand
          rw [if_neg Bool.false_ne_true]
          split
          · simp only
            constructor
            · intro hh; exact Or.inl hh
            · rintro (hh | hh)
              · exact hh
              · exact absurd ⟨hh.2.2.1, hh.2.2.2⟩ hc2
          · constructor
            · intro hh; exact Or.inl hh
            · rintro (hh | hh)
              · exact hh
              · exact absurd ⟨hh.2.2.1, hh.2.2.2⟩ hc2
    · rw [if_neg hv]
      constructor
      · intro hh; exact Or.inl hh
      · rintro (hh | hh)
        · exact hh
        · exact absurd hh.1 hv
  · intro h
    simp only [applyBMD, h]
    by_cases hv : 0 < b.Version
    · simp only [if_pos hv]
      match hm : st.maxVerBMD with
      | none => simp [hv]
      | some mx =>
        simp only
        cases hc : (st.borigin != "" && st.borigin != b.UUID) with
        | true =>
          rw [Bool.and_eq_true, bne_iff_ne, bne_iff_ne] at hc
          simp [hv, hc.1, hc.2]
        | false =>
          have hc2 : ¬(st.borigin ≠ "" ∧ st.borigin ≠ b.UUID) := by
            intro hand
            rw [← Bool.not_eq_true, Bool.and_eq_true, bne_iff_ne, bne_iff_ne] at hc
            exact hc hand
          rw [if_neg Bool.false_ne_true]
          split
          · simp only
            constructor
            · intro hh; exact Or.inl hh
            · rintro (hh | hh)
              · exact hh
              · exact absurd ⟨hh.2.2.1, hh.2.2.2⟩ hc2
          · constructor
            · intro hh; exact Or.inl hh
            · rintro (hh | hh)
              · exact hh
              · exact absurd ⟨hh.2.2.1, hh.2.2.2⟩ hc2
    · rw [if_neg hv]
      constructor
      · intro hh; exact Or.inl hh
      · rintro (hh | hh)
        · exact hh
        · exact absurd hh.1 hv

/-- Witness for the amended C3 at a concrete state: origin uuid `A` on both
kinds, an incoming empty-uuid map and BMD of positive version — both steps
set the slow path. -/
theorem C3_amended_witness :
    ((applySmap c3wSt c3wSvm).slowp = true ↔
      (c3wSt.slowp = true ∨
        (0 < c3sE.Version ∧ c3wSt.maxVerSmap.isSome = true ∧
          c3wSt.sorigin ≠ "" ∧ c3wSt.sorigin ≠ c3sE.UUID))) ∧
    ((applyBMD c3wSt c3wSvm).slowp = true ↔
      (c3wSt.slowp = true ∨
        (0 < (⟨"", 2⟩ : bucketMD).Version ∧ c3wSt.maxVerBMD.isSome = true ∧
          c3wSt.borigin ≠ "" ∧ c3wSt.borigin ≠ (⟨"", 2⟩ : bucketMD).UUID))) :=
  ⟨(C3_amended_slowpath_iff c3wSt c3wSvm c3sE ⟨"", 2⟩).1 rfl,
   (C3_amended_slowpath_iff c3wSt c3wSvm c3sE ⟨"", 2⟩).2 rfl⟩

/-- Helper: once `wtime` has been promoted to the full deadline, the window
loop (no loaded map, `ntargets = 0`, self primary at every tick) keeps ticking
until the full deadline elapses. -/
theorem regsLoop_full (self : Snode) (deadline maxKA : Nat) (ticks : Nat → Tick)
    (hp : ∀ k, isPrimary (ticks k).smap self = true) :
    ∀ fuel elapsed probes, fuel + elapsed = deadline →
      acceptRegsLoop self none deadline maxKA 0 ticks fuel elapsed deadline true probes =
        ⟨none, deadline, probes⟩ := by
  intro fuel
  induction fuel with
  | zero =>
    intro elapsed probes h
    have he : elapsed = deadline := by omega
    subst he
    rfl
  | succ fuel ih =>
    intro elapsed probes h
    have hg : ¬ deadline ≤ elapsed := by omega
    rw [acceptRegsLoop, if_neg hg]
    simp only [hp (elapsed + 1), Bool.not_true, Bool.false_eq_true, if_false,
      Nat.lt_irrefl, decide_False, Bool.and_false, ite_self]
    exact ih (elapsed + 1) probes (by omega)

/-- Helper: with zero registrations at every tick (no loaded map,
`ntargets = 0`, self primary), `wtime` is never promoted and the window loop
exits exactly when half the deadline has elapsed. -/
theorem regsLoop_half (self : Snode) (deadline maxKA : Nat) (ticks : Nat → Tick)
    (hp : ∀ k, isPrimary (ticks k).smap self = true)
    (hz : ∀ k, countTargets (ticks k).smap = 0) :
    ∀ fuel elapsed probes, deadline / 2 ≤ fuel + elapsed → elapsed ≤ deadline / 2 →
      acceptRegsLoop self none deadline maxKA 0 ticks fuel elapsed (deadline / 2)
          true probes =
        ⟨none, deadline / 2, probes⟩ := by
  intro fuel
  induction fuel with
  | zero =>
    intro elapsed probes h1 h2
    have he : elapsed = deadline / 2 := by omega
    subst he
    rfl
  | succ fuel ih =>
    intro elapsed probes h1 h2
    by_cases hg : deadline / 2 ≤ elapsed
    · have he : elapsed = deadline / 2 := by omega
      subst he
      rw [acceptRegsLoop, if_pos (by omega)]
    · rw [acceptRegsLoop, if_neg hg]
      simp only [hp (elapsed + 1), Bool.not_true, Bool.false_eq_true, if_false,
        Nat.lt_irrefl, decide_False, Bool.and_false, hz (elapsed + 1), ite_false]
      exact ih (elapsed + 1) probes (by omega) (by omega)

/-- Claim C7 (amended): with `targetCount = 0`, self primary throughout and no
supersede possible (nothing loaded), the registration window runs to the full
`startupTimeout` only when registrations are observed (the first tick already
seeing a target); with zero registrations throughout it exits at
`startupTimeout / 2`, not the full deadline. -/
theorem C7_amended_window_deadline (self : Snode) (deadline maxKA : Nat)
    (ticks : Nat → Tick)
    (hp : ∀ k, isPrimary (ticks k).smap self = true) :
    ((∀ k, 0 < countTargets (ticks k).smap) → 2 ≤ deadline →
      acceptRegistrations self none deadline maxKA 0 ticks = ⟨none, deadline, 0⟩) ∧
    ((∀ k, countTargets (ticks k).smap = 0) →
      acceptRegistrations self none deadline maxKA 0 ticks = ⟨none, deadline / 2, 0⟩) := by
  constructor
  · intro ht hd
    match deadline, hd with
    | d + 2, _ =>
      show acceptRegsLoop self none (d + 2) maxKA 0 ticks (d + 2) 0 ((d + 2) / 2) true 0 = _
      rw [acceptRegsLoop, if_neg (by omega)]
      simp only [hp 1, Bool.not_true, Bool.false_eq_true, if_false,
        Nat.lt_irrefl, decide_False, Bool.and_false, if_pos (ht 1)]
      exact regsLoop_full self (d + 2) maxKA ticks hp (d + 1) 1 0 (by omega)
  · intro hz
    show acceptRegsLoop self none deadline maxKA 0 ticks deadline 0 (deadline / 2)
        true 0 = _
    exact regsLoop_half self deadline maxKA ticks hp hz deadline 0 0 (by omega) (by omega)

/-- Witness for the amended C7: deadline 4; with a target registered at every
tick the window runs 4 seconds; with none it exits after 2. -/
theorem C7_amended_witness :
    acceptRegistrations p1 none 4 1 0 (fun _ => c7tickT) = ⟨none, 4, 0⟩ ∧
    acceptRegistrations p1 none 4 1 0 (fun _ => ⟨c7smap, none, false⟩) = ⟨none, 2, 0⟩ :=
  ⟨(C7_amended_window_deadline p1 4 1 (fun _ => c7tickT)
      (fun _ => (show isPrimary c7tickT.smap p1 = true by decide))).1
      (fun _ => (show 0 < countTargets c7tickT.smap by decide)) (by omega),
   (C7_amended_window_deadline p1 4 1 (fun _ => ⟨c7smap, none, false⟩)
      (fun _ => (show isPrimary c7smap p1 = true by decide))).2
      (fun _ => (show countTargets c7smap = 0 by decide))⟩

/-- Helper: in a well-formed association list (each value's id is its key), a
successful lookup returns a node whose id is the key. -/
theorem lookupNode_wf (l : List (String × Snode)) (k : String) (n : Snode)
    (hwf : ∀ kv ∈ l, kv.snd.id = kv.fst) (h : lookupNode l k = some n) : n.id = k := by
  unfold lookupNode at h
  match hf : l.find? (fun kv => kv.fst == k) with
  | none => rw [hf] at h; cases h
  | some kv =>
    rw [hf] at h
    injection h with h2
    have hm : kv ∈ l := List.mem_of_find?_eq_some hf
    have hb := List.find?_some hf
    rw [← h2, hwf kv hm]
    exact eq_of_beq hb

/-- Helper: inserting a node keyed by its own id preserves well-formedness. -/
theorem insertNode_wf (l : List (String × Snode)) (n : Snode)
    (hwf : ∀ kv ∈ l, kv.snd.id = kv.fst) :
    ∀ kv ∈ insertNode l n, kv.snd.id = kv.fst := by
  intro kv hkv
  unfold insertNode at hkv
  by_cases hp : (lookupNode l n.id).isSome = true
  · rw [if_pos hp] at hkv
    obtain ⟨kv0, hkv0, heq⟩ := List.mem_map.mp hkv
    by_cases he : (kv0.fst == n.id) = true
    · rw [if_pos he] at heq
      subst heq
      rfl
    · rw [if_neg he] at heq
      subst heq
      exact hwf kv0 hkv0
  · rw [if_neg hp] at hkv
    rcases List.mem_append.mp hkv with h | h
    · exact hwf kv h
    · rw [List.mem_singleton.mp h]

/-- Claim C8 (amended): on a well-formed loaded map, `determineRole` decides
secondary exactly by the amended disjunction — the env clause counts only when
the env-named id is known to the loaded map (or nothing was loaded); an
unknown env id is dropped and the loaded map's primary decides. -/
theorem C8_amended_secondary_iff (self : Snode) (smap0 : smapX) (loaded : Bool)
    (env : EnvP) (sm : Option smapX) (sec : Bool)
    (hwf : ∀ kv ∈ smap0.Pmap, kv.snd.id = kv.fst)
    (hrole : determineRole self smap0 loaded env = RoleResult.role sm sec) :
    sec = amendedC8secondary self smap0 loaded env := by
  simp only [determineRole] at hrole
  by_cases hf : (env.pid != "" && env.primary && self.id != env.pid) = true
  · rw [if_pos hf] at hrole
    exact RoleResult.noConfusion hrole
  · rw [if_neg hf] at hrole
    rw [RoleResult.role.injEq] at hrole
    obtain ⟨hsm, hsec⟩ := hrole
    subst hsec
    cases loaded with
    | false =>
      by_cases hpid : env.pid = ""
      · simp [amendedC8secondary, adoptedView, hpid]
      · have hb1 : (env.pid != "") = true := bne_iff_ne.mpr hpid
        have hb2 : (env.pid == "") = false := beq_eq_false_iff_ne.mpr hpid
        simp [amendedC8secondary, adoptedView, hpid, hb1, hb2]
    | true =>
      by_cases hpid : env.pid = ""
      · simp [amendedC8secondary, adoptedView, hpid]
      · have hb1 : (env.pid != "") = true := bne_iff_ne.mpr hpid
        have hb2 : (env.pid == "") = false := beq_eq_false_iff_ne.mpr hpid
        have hpid2 : ¬("" = env.pid) := fun h => hpid h.symm
        cases hgp : getProxy (insertSelf smap0 self) env.pid with
        | none =>
          simp [amendedC8secondary, adoptedView, adoptEnvPrimary, hgp, hpid,
            hb1, hb2, hpid2]
        | some prx =>
          have hprx : prx.id = env.pid :=
            lookupNode_wf _ _ _ (insertNode_wf smap0.Pmap self hwf) hgp
          match hpsi : (insertSelf smap0 self).ProxySI with
          | none =>
            simp [amendedC8secondary, adoptedView, adoptEnvPrimary, hgp, hpid,
              hb1, hb2, hpid2, isPrimary, proxyID, hpsi, hprx, bne]
          | some x =>
            by_cases hx : x.id = env.pid
            · simp [amendedC8secondary, adoptedView, adoptEnvPrimary, hgp, hpid,
                hb1, hb2, hpid2, isPrimary, proxyID, hpsi, hx, hprx, bne]
            · have hx2 : ¬(x.id = env.pid) := hx
              simp [amendedC8secondary, adoptedView, adoptEnvPrimary, hgp, hpid,
                hb1, hb2, hpid2, isPrimary, proxyID, hpsi, hx2, hprx, bne]

/-- Witness for the amended C8 at the concrete counterexample input: the
decision (primary) agrees with the amended predicate. -/
theorem C8_amended_witness :
    false = amendedC8secondary p1 c8smap true c8env :=
  C8_amended_secondary_iff p1 c8smap true c8env (some (insertSelf c8smap p1)) false
    (by decide) (by decide)

/-- Helper: `find?` on a cons whose head satisfies the test. -/
theorem find?_cons_true {A : Type} (p : A → Bool) (a : A) (l : List A)
    (h : p a = true) : List.find? p (a :: l) = some a := by
  unfold List.find?
  rw [h]

/-- Helper: `find?` on a cons whose head fails the test. -/
theorem find?_cons_false {A : Type} (p : A → Bool) (a : A) (l : List A)
    (h : p a = false) : List.find? p (a :: l) = List.find? p l := by
  conv => lhs; unfold List.find?
  rw [h]

/-- Helper: after the Go-map assignment replacing the entry keyed `n.id`,
looking up `n.id` finds `n`. -/
theorem lookupNode_map_insert (n : Snode) :
    ∀ l : List (String × Snode), (lookupNode l n.id).isSome = true →
      lookupNode (l.map (fun kv => if kv.fst == n.id then (n.id, n) else kv)) n.id
        = some n := by
  intro l
  induction l with
  | nil => intro h; simp [lookupNode] at h
  | cons kv l ih =>
    intro h
    by_cases he : (kv.fst == n.id) = true
    · simp only [List.map_cons, if_pos he]
      unfold lookupNode
      rw [find?_cons_true (fun kv => kv.fst == n.id) (n.id, n) _ (by simp)]
    · have he2 : (kv.fst == n.id) = false := Bool.eq_false_iff.mpr he
      simp only [List.map_cons, if_neg he]
      unfold lookupNode at h ⊢
      rw [find?_cons_false (fun kv => kv.fst == n.id) kv l he2] at h
      rw [find?_cons_false (fun kv => kv.fst == n.id) kv _ he2]
      exact ih h

/-- Helper: a lookup that misses the whole list falls through to the appended
entry. -/
theorem lookupNode_append_right (k : String) (e : String × Snode) :
    ∀ l : List (String × Snode), lookupNode l k = none →
      lookupNode (l ++ [e]) k = lookupNode [e] k := by
  intro l
  induction l with
  | nil => intro h; rfl
  | cons kv l ih =>
    intro h
    unfold lookupNode at h ⊢
    by_cases he : (kv.fst == k) = true
    · rw [find?_cons_true (fun kv => kv.fst == k) kv l he] at h
      exact Option.noConfusion h
    · have he2 : (kv.fst == k) = false := Bool.eq_false_iff.mpr he
      rw [find?_cons_false (fun kv => kv.fst == k) kv l he2] at h
      rw [List.cons_append, find?_cons_false (fun kv => kv.fst == k) kv _ he2]
      exact ih h

/-- Helper: the Go-map assignment `l[n.id] = n` makes `n` retrievable. -/
theorem lookupNode_insertNode_self (l : List (String × Snode)) (n : Snode) :
    lookupNode (insertNode l n) n.id = some n := by
  unfold insertNode
  by_cases hp : (lookupNode l n.id).isSome = true
  · rw [if_pos hp]
    exact lookupNode_map_insert n l hp
  · rw [if_neg hp]
    have hnone : lookupNode l n.id = none := by
      match hl : lookupNode l n.id with
      | none => rfl
      | some x => rw [hl] at hp; simp at hp
    rw [lookupNode_append_right n.id (n.id, n) l hnone]
    unfold lookupNode
    rw [find?_cons_true (fun kv => kv.fst == n.id) (n.id, n) [] (by simp)]

/-- Helper: the env-primary adjustment never changes the gateway map. -/
theorem adoptEnvPrimary_pmap (m : smapX) (pid : String) :
    (adoptEnvPrimary m pid).fst.Pmap = m.Pmap := by
  unfold adoptEnvPrimary
  split
  · rfl
  · split <;> rfl

/-- Claim C9 (amended): every CMap the *primary-track* bootstrap installs
contains this node in its gateway map — the loaded CMap as left by
`determineRole`, the minimal startup CMap, the change-of-mind #1 install of
the window's supersede map, and the discovery demotion install; the secondary
track's fresh install (an empty `newSmap` when nothing was loaded) does not
contain self. -/
theorem C9_amended_self_in_gateways (self : Snode) (smap0 smapD ownerD mv1 : smapX)
    (env : EnvP) (sm : Option smapX) (sec : Bool) (mvD : Option smapX)
    (hrole : determineRole self smap0 true env = RoleResult.role sm sec) :
    (∀ s, sm = some s → lookupNode s.Pmap self.id = some self) ∧
    lookupNode (minimalStartupSmap self).Pmap self.id = some self ∧
    lookupNode (changeOfMind1Install mv1 self).Pmap self.id = some self ∧
    (∀ s, discoverDecide self smapD ownerD mvD = DiscoverResult.demoted s →
      lookupNode s.Pmap self.id = some self) := by
  refine ⟨?_, ?_, ?_, ?_⟩
  · intro s hs
    simp only [determineRole, Bool.true_and, eq_self_iff_true, if_true] at hrole
    by_cases hf : (env.pid != "" && env.primary && self.id != env.pid) = true
    · rw [if_pos hf] at hrole
      exact RoleResult.noConfusion hrole
    · rw [if_neg hf] at hrole
      rw [RoleResult.role.injEq] at hrole
      obtain ⟨hsm, _⟩ := hrole
      have h2 := hsm.trans hs
      injection h2 with h3
      rw [← h3]
      by_cases hc : (env.pid != "") = true
      · rw [if_pos hc, adoptEnvPrimary_pmap]
        exact lookupNode_insertNode_self smap0.Pmap self
      · rw [if_neg hc]
        exact lookupNode_insertNode_self smap0.Pmap self
  · exact lookupNode_insertNode_self newSmap.Pmap self
  · exact lookupNode_insertNode_self mv1.Pmap self
  · intro s hd
    match mvD with
    | none => exact DiscoverResult.noConfusion hd
    | some mv =>
      simp only [discoverDecide] at hd
      by_cases h1 : (mv.Version == 0) = true
      · rw [if_pos h1] at hd
        exact DiscoverResult.noConfusion hd
      · rw [if_neg h1] at hd
        by_cases h2 : (!(smapCompare smapD mv).sameUUID) = true
        · rw [if_pos h2] at hd
          exact DiscoverResult.noConfusion hd
        · rw [if_neg h2] at hd
          by_cases h3 :
              ((smapCompare smapD mv).eq && (smapCompare smapD mv).sameVersion) = true
          · rw [if_pos h3] at hd
            exact DiscoverResult.noConfusion hd
          · rw [if_neg h3] at hd
            by_cases h4 :
                (match mv.ProxySI with | some q => q.id != self.id | none => false) = true
            · rw [if_pos h4] at hd
              by_cases h5 : smapD.Version < mv.Version
              · rw [if_pos h5] at hd
                injection hd with h6
                rw [← h6]
                exact lookupNode_insertNode_self mv.Pmap self
              · rw [if_neg h5] at hd
                exact DiscoverResult.noConfusion hd
            · rw [if_neg h4] at hd
              by_cases h6 : (!(smapCompare smapD mv).eq) = true
              · rw [if_pos h6] at hd
                exact DiscoverResult.noConfusion hd
              · rw [if_neg h6] at hd
                exact DiscoverResult.noConfusion hd

/-- Witness for the amended C9 at concrete inputs: all four primary-track
installs contain `p1` in their gateway maps. -/
theorem C9_amended_witness :
    lookupNode (insertSelf c8smap p1).Pmap p1.id = some p1 ∧
    lookupNode (minimalStartupSmap p1).Pmap p1.id = some p1 ∧
    lookupNode (changeOfMind1Install c5mv p1).Pmap p1.id = some p1 ∧
    lookupNode (insertSelf c5mv p1).Pmap p1.id = some p1 := by
  have h := C9_amended_self_in_gateways p1 c8smap c5smap c5smap c5mv c8env
    (some (insertSelf c8smap p1)) false (some c5mv) (by decide)
  exact ⟨h.1 (insertSelf c8smap p1) rfl, h.2.1, h.2.2.1,
    h.2.2.2 (insertSelf c5mv p1) (by decide)⟩

/-- Helper: a probe answer accepted as supersede matches the loaded map's
uuid, strictly exceeds its version, and names a primary that is not self. -/
theorem probeHit_some (self : Snode) (l : smapX) (t : Tick) (mv : smapX)
    (h : probeHit self l t = some mv) :
    mv.UUID = l.UUID ∧ l.Version < mv.Version ∧
      ∃ q, mv.ProxySI = some q ∧ q.id ≠ self.id := by
  unfold probeHit at h
  match hps : t.probeSmap with
  | none => rw [hps] at h; exact Option.noConfusion h
  | some mv0 =>
    rw [hps] at h
    have h' : (if (!t.probeSlowp) = true then
        if (mv0.UUID == l.UUID && decide (l.Version < mv0.Version)) = true then
          match mv0.ProxySI with
          | some q => if (q.id != self.id) = true then some mv0 else none
          | none => none
        else none
      else none) = some mv := h
    clear h
    rename' h' => h
    by_cases h1 : (!t.probeSlowp) = true
    · rw [if_pos h1] at h
      by_cases h2 : (mv0.UUID == l.UUID && decide (l.Version < mv0.Version)) = true
      · rw [if_pos h2] at h
        match hq : mv0.ProxySI with
        | none => rw [hq] at h; exact Option.noConfusion h
        | some q =>
          rw [hq] at h
          have h' : (if (q.id != self.id) = true then some mv0 else none) = some mv := h
          clear h
          rename' h' => h
          by_cases h3 : (q.id != self.id) = true
          · rw [if_pos h3] at h
            injection h with h4
            subst h4
            rw [Bool.and_eq_true] at h2
            exact ⟨eq_of_beq h2.1, of_decide_eq_true h2.2, q, hq, bne_iff_ne.mp h3⟩
          · rw [if_neg h3] at h
            exact Option.noConfusion h
      · rw [if_neg h2] at h
        exact Option.noConfusion h
    · rw [if_neg h1] at h
      exact Option.noConfusion h

/-- Helper invariant of the registration-window loop: the probe count grows by
at most one (and only from an unlatched state), elapsed time only grows, any
probe implies a loaded map with targets and a tick past `2 × maxKeepalive`,
and any supersede answer satisfies the probe conditions. -/
theorem regsLoop_probe_inv (self : Snode) (loaded : Option smapX)
    (deadline maxKA ntargets : Nat) (ticks : Nat → Tick) :
    ∀ fuel elapsed wtime checked probes r,
      acceptRegsLoop self loaded deadline maxKA ntargets ticks
        fuel elapsed wtime checked probes = r →
      (r.probes ≤ probes + (if checked = true then 0 else 1) ∧
       elapsed ≤ r.ticksUsed ∧
       (probes < r.probes →
         ∃ l, loaded = some l ∧ 0 < countTargets l ∧ 2 * maxKA < r.ticksUsed) ∧
       (∀ s, r.superseder = some s →
         ∃ l, loaded = some l ∧ s.UUID = l.UUID ∧ l.Version < s.Version ∧
           ∃ q, s.ProxySI = some q ∧ q.id ≠ self.id)) := by
  intro fuel
  induction fuel with
  | zero =>
    intro elapsed wtime checked probes r heq
    subst heq
    exact ⟨Nat.le_add_right _ _, Nat.le_refl _,
      fun h => absurd h (Nat.lt_irrefl _), fun s hs => Option.noConfusion hs⟩
  | succ fuel ih =>
    intro elapsed wtime checked probes r heq
    subst heq
    rw [acceptRegsLoop.eq_def]
    simp only []
    by_cases hg : wtime ≤ elapsed
    · rw [if_pos hg]
      exact ⟨Nat.le_add_right _ _, Nat.le_refl _,
        fun h => absurd h (Nat.lt_irrefl _), fun s hs => Option.noConfusion hs⟩
    · rw [if_neg hg]
      by_cases hnp : (!(isPrimary (ticks (elapsed + 1)).smap self)) = true
      · rw [if_pos hnp]
        exact ⟨Nat.le_add_right _ _, Nat.le_succ _,
          fun h => absurd h (Nat.lt_irrefl _), fun s hs => Option.noConfusion hs⟩
      · rw [if_neg hnp]
        by_cases hret : (decide (ntargets ≤ countTargets (ticks (elapsed + 1)).smap)
            && decide (0 < ntargets)) = true
        · rw [if_pos hret]
          exact ⟨Nat.le_add_right _ _, Nat.le_succ _,
            fun h => absurd h (Nat.lt_irrefl _), fun s hs => Option.noConfusion hs⟩
        · rw [if_neg hret]
          cases loaded with
          | none =>
            simp only []
            obtain ⟨i1, i2, i3, i4⟩ := ih (elapsed + 1)
              (if 0 < countTargets (ticks (elapsed + 1)).smap then deadline else wtime)
              checked probes _ rfl
            exact ⟨i1, Nat.le_trans (Nat.le_succ _) i2, i3, i4⟩
          | some l =>
            simp only []
            by_cases hpr : (!checked && decide (0 < countTargets l)
                && decide (2 * maxKA < elapsed + 1)) = true
            · rw [if_pos hpr]
              rw [Bool.and_eq_true, Bool.and_eq_true] at hpr
              have hch : checked = false := by
                have := hpr.1.1
                simpa using this
              cases hph : probeHit self l (ticks (elapsed + 1)) with
              | some mv =>
                refine ⟨?_, Nat.le_succ _, ?_, ?_⟩
                · rw [hch]
                  simp
                · intro _
                  exact ⟨l, rfl, of_decide_eq_true hpr.1.2,
                    of_decide_eq_true hpr.2⟩
                · intro s hs
                  injection hs with hs2
                  subst hs2
                  obtain ⟨hu, hv, q, hq, hqid⟩ := probeHit_some self l _ mv hph
                  exact ⟨l, rfl, hu, hv, q, hq, hqid⟩
              | none =>
                obtain ⟨i1, i2, i3, i4⟩ := ih (elapsed + 1)
                  (if 0 < countTargets (ticks (elapsed + 1)).smap then deadline else wtime)
                  true (probes + 1) _ rfl
                refine ⟨?_, Nat.le_trans (Nat.le_succ _) i2, ?_, i4⟩
                · rw [hch]
                  simpa using i1
                · intro _
                  exact ⟨l, rfl, of_decide_eq_true hpr.1.2,
                    Nat.lt_of_lt_of_le (of_decide_eq_true hpr.2) i2⟩
            · rw [if_neg hpr]
              obtain ⟨i1, i2, i3, i4⟩ := ih (elapsed + 1)
                (if 0 < countTargets (ticks (elapsed + 1)).smap then deadline else wtime)
                checked probes _ rfl
              exact ⟨i1, Nat.le_trans (Nat.le_succ _) i2, i3, i4⟩

/-- Claim C6: the is-the-cluster-elsewhere probe of the registration window
runs at most once, only with a loaded map having at least one target and only
past `2 × maxKeepalive`; a returned supersede map always has the loaded map's
uuid, a strictly greater version, and a primary different from self — hence
the window never returns a supersede map naming self as primary. -/
theorem C6_probe_once_and_supersede (self : Snode) (loaded : Option smapX)
    (deadline maxKA ntargets : Nat) (ticks : Nat → Tick) :
    (acceptRegistrations self loaded deadline maxKA ntargets ticks).probes ≤ 1 ∧
    (0 < (acceptRegistrations self loaded deadline maxKA ntargets ticks).probes →
      ∃ l, loaded = some l ∧ 0 < countTargets l ∧
        2 * maxKA < (acceptRegistrations self loaded deadline maxKA ntargets ticks).ticksUsed) ∧
    (∀ s, (acceptRegistrations self loaded deadline maxKA ntargets ticks).superseder = some s →
      ∃ l, loaded = some l ∧ s.UUID = l.UUID ∧ l.Version < s.Version ∧
        ∃ q, s.ProxySI = some q ∧ q.id ≠ self.id) := by
  obtain ⟨h1, _, h3, h4⟩ := regsLoop_probe_inv self loaded deadline maxKA ntargets ticks
    deadline 0 (deadline / 2) loaded.isNone 0 _ rfl
  have hb : 0 + (if loaded.isNone = true then 0 else 1) ≤ 1 := by
    cases loaded <;> simp
  exact ⟨Nat.le_trans h1 hb, h3, h4⟩

/-- Witness for C6 at a concrete window run: loaded map `U`/v5 with one
target, probe fires at tick 3 and returns the supersede map `U`/v6 naming
`q1`. -/
theorem C6_witness :
    (acceptRegistrations p1 (some c6loaded) 10 1 5 c6ticks).probes ≤ 1 ∧
    (∃ l, (some c6loaded : Option smapX) = some l ∧ 0 < countTargets l ∧
      2 * 1 < (acceptRegistrations p1 (some c6loaded) 10 1 5 c6ticks).ticksUsed) ∧
    (∃ l, (some c6loaded : Option smapX) = some l ∧ c6sup.UUID = l.UUID ∧
      l.Version < c6sup.Version ∧ ∃ q, c6sup.ProxySI = some q ∧ q.id ≠ p1.id) :=
  ⟨(C6_probe_once_and_supersede p1 (some c6loaded) 10 1 5 c6ticks).1,
   (C6_probe_once_and_supersede p1 (some c6loaded) 10 1 5 c6ticks).2.1 (by decide),
   (C6_probe_once_and_supersede p1 (some c6loaded) 10 1 5 c6ticks).2.2 c6sup (by decide)⟩

/-- Helper: once non-empty, the agreed target uuid never changes. -/
theorem pickSuuid_fixed :
    ∀ (l : List (Snode × smapX)) (u suuid : String), u ≠ "" →
      pickSuuid u l = Except.ok suuid → suuid = u := by
  intro l
  induction l with
  | nil =>
    intro u suuid _ h
    injection h with h2
    exact h2.symm
  | cons kv l ih =>
    obtain ⟨si, sm⟩ := kv
    intro u suuid hu h
    unfold pickSuuid at h
    by_cases ht : (!si.isTargetNode) = true
    · rw [if_pos ht] at h
      exact ih u suuid hu h
    · rw [if_neg ht] at h
      rw [if_neg (by simpa using hu)] at h
      by_cases hc : (u != sm.UUID && sm.UUID != "") = true
      · rw [if_pos hc] at h
        exact Except.noConfusion h
      · rw [if_neg hc] at h
        exact ih u suuid hu h

/-- Helper: when the first slow-path loop succeeds, every target's non-empty
uuid equals the agreed `suuid`. -/
theorem pickSuuid_ok_all :
    ∀ (l : List (Snode × smapX)) (u suuid : String),
      pickSuuid u l = Except.ok suuid →
      ∀ si sm, (si, sm) ∈ l → si.isTargetNode = true → sm.UUID ≠ "" →
        sm.UUID = suuid := by
  intro l
  induction l with
  | nil =>
    intro u suuid _ si sm hm
    exact absurd hm (List.not_mem_nil _)
  | cons kv l ih =>
    obtain ⟨sj, sj2⟩ := kv
    intro u suuid h si sm hm ht hne
    unfold pickSuuid at h
    by_cases htj : (!sj.isTargetNode) = true
    · rw [if_pos htj] at h
      rcases List.mem_cons.mp hm with hh | hh
      · injection hh with h1 h2
        rw [h1] at ht
        rw [ht] at htj
        simp at htj
      · exact ih u suuid h si sm hh ht hne
    · rw [if_neg htj] at h
      by_cases hu : (u == "") = true
      · rw [if_pos hu] at h
        rcases List.mem_cons.mp hm with hh | hh
        · injection hh with h1 h2
          rw [h2]
          exact (pickSuuid_fixed l sj2.UUID suuid (h2 ▸ hne) h).symm
        · exact ih sj2.UUID suuid h si sm hh ht hne
      · rw [if_neg hu] at h
        by_cases hc : (u != sj2.UUID && sj2.UUID != "") = true
        · rw [if_pos hc] at h
          exact Except.noConfusion h
        · rw [if_neg hc] at h
          rcases List.mem_cons.mp hm with hh | hh
          · injection hh with h1 h2
            have huu : u ≠ "" := by simpa using hu
            have hsu : suuid = u := pickSuuid_fixed l u suuid huu h
            have heq : u = sj2.UUID := by
              by_contra hne2
              apply hc
              rw [Bool.and_eq_true, bne_iff_ne, bne_iff_ne]
              exact ⟨hne2, h2 ▸ hne⟩
            rw [h2, ← heq, hsu]
          · exact ih u suuid h si sm hh ht hne

/-- Helper: the second slow-path loop never loses the seed's version. -/
theorem pickMax_ge_init (suuid : String) :
    ∀ (l : List (Snode × smapX)) (m : smapX),
      ∃ r, pickMaxBySuuid suuid (some m) l = some r ∧ m.Version ≤ r.Version := by
  intro l
  induction l with
  | nil => intro m; exact ⟨m, rfl, le_refl _⟩
  | cons kv l ih =>
    obtain ⟨sj, sm⟩ := kv
    intro m
    unfold pickMaxBySuuid
    by_cases hu : (sm.UUID != suuid) = true
    · rw [if_pos hu]
      exact ih m
    · rw [if_neg hu]
      simp only []
      by_cases hv : m.Version < sm.Version
      · rw [if_pos hv]
        obtain ⟨r, hr, hle⟩ := ih sm
        exact ⟨r, hr, le_trans (le_of_lt hv) hle⟩
      · rw [if_neg hv]
        exact ih m

/-- Helper: the second slow-path loop dominates every uuid-matching entry. -/
theorem pickMax_ge_mem (suuid : String) :
    ∀ (l : List (Snode × smapX)) (mx : Option smapX) (si : Snode) (sm : smapX),
      (si, sm) ∈ l → sm.UUID = suuid →
      ∃ r, pickMaxBySuuid suuid mx l = some r ∧ sm.Version ≤ r.Version := by
  intro l
  induction l with
  | nil =>
    intro mx si sm hm
    exact absurd hm (List.not_mem_nil _)
  | cons kv l ih =>
    obtain ⟨sj, sj2⟩ := kv
    intro mx si sm hm hu
    unfold pickMaxBySuuid
    rcases List.mem_cons.mp hm with hh | hh
    · injection hh with h1 h2
      subst h2
      rw [if_neg (by simp [hu])]
      cases mx with
      | none =>
        simp only []
        exact pickMax_ge_init suuid l sm
      | some m =>
        simp only []
        by_cases hv : m.Version < sm.Version
        · rw [if_pos hv]
          exact pickMax_ge_init suuid l sm
        · rw [if_neg hv]
          obtain ⟨r, hr, hle⟩ := pickMax_ge_init suuid l m
          exact ⟨r, hr, le_trans (le_of_not_lt hv) hle⟩
    · by_cases hj : (sj2.UUID != suuid) = true
      · rw [if_pos hj]
        exact ih mx si sm hh hu
      · rw [if_neg hj]
        cases mx with
        | none =>
          simp only []
          exact ih (some sj2) si sm hh hu
        | some m =>
          simp only []
          by_cases hv : m.Version < sj2.Version
          · rw [if_pos hv]
            exact ih (some sj2) si sm hh hu
          · rw [if_neg hv]
            exact ih (some m) si sm hh hu

/-- Helper: the second slow-path loop returns either its seed or a retained
uuid-matching entry. -/
theorem pickMax_mem (suuid : String) :
    ∀ (l : List (Snode × smapX)) (mx : Option smapX) (r : smapX),
      pickMaxBySuuid suuid mx l = some r →
      mx = some r ∨ ((∃ si, (si, r) ∈ l) ∧ r.UUID = suuid) := by
  intro l
  induction l with
  | nil => intro mx r h; exact Or.inl h
  | cons kv l ih =>
    obtain ⟨sj, sm⟩ := kv
    intro mx r h
    unfold pickMaxBySuuid at h
    by_cases hu : (sm.UUID != suuid) = true
    · rw [if_pos hu] at h
      rcases ih mx r h with h1 | ⟨⟨si, hmem⟩, huu⟩
      · exact Or.inl h1
      · exact Or.inr ⟨⟨si, List.mem_cons_of_mem _ hmem⟩, huu⟩
    · rw [if_neg hu] at h
      have hsuu : sm.UUID = suuid := by
        rw [bne] at hu
        simpa using hu
      cases mx with
      | none =>
        simp only [] at h
        rcases ih (some sm) r h with h1 | ⟨⟨si, hmem⟩, huu⟩
        · injection h1 with h2
          exact Or.inr ⟨⟨sj, h2 ▸ List.mem_cons_self (sj, sm) l⟩, h2 ▸ hsuu⟩
        · exact Or.inr ⟨⟨si, List.mem_cons_of_mem _ hmem⟩, huu⟩
      | some m =>
        simp only [] at h
        by_cases hv : m.Version < sm.Version
        · rw [if_pos hv] at h
          rcases ih (some sm) r h with h1 | ⟨⟨si, hmem⟩, huu⟩
          · injection h1 with h2
            exact Or.inr ⟨⟨sj, h2 ▸ List.mem_cons_self (sj, sm) l⟩, h2 ▸ hsuu⟩
          · exact Or.inr ⟨⟨si, List.mem_cons_of_mem _ hmem⟩, huu⟩
        · rw [if_neg hv] at h
          rcases ih (some m) r h with h1 | ⟨⟨si, hmem⟩, huu⟩
          · exact Or.inl h1
          · exact Or.inr ⟨⟨si, List.mem_cons_of_mem _ hmem⟩, huu⟩

/-- Claim C4 (amended): on the slow path, the agreed `suuid` is taken from
targets only and two targets reporting different non-empty uuids are the
CIE-30 fatal; otherwise the small resolution returns the maximum by version
of the carried fast-path maximum *and* the responders whose uuid equals
`suuid` (the carried maximum is not reset, so the result's uuid may differ
from `suuid`). -/
theorem C4_amended_slow_resolution (st : BcastState) (hslow : st.slowp = true) :
    (∀ pa sa pb sb, (pa, sa) ∈ st.smaps → (pb, sb) ∈ st.smaps →
      pa.isTargetNode = true → pb.isTargetNode = true →
      sa.UUID ≠ "" → sb.UUID ≠ "" → sa.UUID ≠ sb.UUID →
      uncoverResolve st = UncoverOutcome.fatalCIE 30) ∧
    (∀ suuid, pickSuuid "" st.smaps = Except.ok suuid →
      (∀ si sm, (si, sm) ∈ st.smaps → si.isTargetNode = true → sm.UUID ≠ "" →
        sm.UUID = suuid) ∧
      (∀ r, pickMaxBySuuid suuid st.maxVerSmap st.smaps = some r →
        uncoverResolve st = UncoverOutcome.ok (some r) ∧
        (st.maxVerSmap = some r ∨ ((∃ si, (si, r) ∈ st.smaps) ∧ r.UUID = suuid)) ∧
        (∀ m, st.maxVerSmap = some m → m.Version ≤ r.Version) ∧
        (∀ si sm, (si, sm) ∈ st.smaps → sm.UUID = suuid →
          sm.Version ≤ r.Version))) := by
  constructor
  · intro pa sa pb sb hma hmb hta htb hna hnb hdiff
    unfold uncoverResolve
    rw [if_pos hslow]
    cases hpk : pickSuuid "" st.smaps with
    | error u => rfl
    | ok suuid =>
      have ha := pickSuuid_ok_all st.smaps "" suuid hpk pa sa hma hta hna
      have hb := pickSuuid_ok_all st.smaps "" suuid hpk pb sb hmb htb hnb
      exact absurd (ha.trans hb.symm) hdiff
  · intro suuid hpk
    refine ⟨pickSuuid_ok_all st.smaps "" suuid hpk, ?_⟩
    intro r hr
    refine ⟨?_, pickMax_mem suuid st.smaps st.maxVerSmap r hr, ?_, ?_⟩
    · unfold uncoverResolve
      rw [if_pos hslow, hpk]
      simp only []
      rw [hr]
    · intro m hm
      rw [hm] at hr
      obtain ⟨r2, hr2, hle⟩ := pickMax_ge_init suuid st.smaps m
      rw [hr] at hr2
      injection hr2 with h3
      exact h3.symm ▸ hle
    · intro si sm hmem huu
      obtain ⟨r2, hr2, hle⟩ := pickMax_ge_mem suuid st.smaps st.maxVerSmap si sm hmem huu
      rw [hr] at hr2
      injection hr2 with h3
      exact h3.symm ▸ hle

/-- Witness for the amended C4 at the concrete slow-path state: carried
fast-path max `A`/v9, one retained target map `B`/v3 — the resolution
returns `A`/v9, which dominates the `B`-uuid entries and the carried max. -/
theorem C4_amended_witness :
    uncoverResolve c4wSt = UncoverOutcome.ok (some c4sA) ∧
    (c4wSt.maxVerSmap = some c4sA ∨
      ((∃ si, (si, c4sA) ∈ c4wSt.smaps) ∧ c4sA.UUID = "B")) ∧
    (∀ m, c4wSt.maxVerSmap = some m → m.Version ≤ c4sA.Version) ∧
    (∀ si sm, (si, sm) ∈ c4wSt.smaps → sm.UUID = "B" →
      sm.Version ≤ c4sA.Version) :=
  ((C4_amended_slow_resolution c4wSt rfl).2 "B" (by decide)).2 c4sA (by decide)

end AIS
